import Mathlib

/-!
# Verification of the NEAR Treasury bulk payment contract

A shallow embedding, in Lean, of the bulk payment contract
(`src/lib.rs`) and of the list-identifier computation of its HTTP
façade (`bulk-payment-api/src/routes.rs`), together with theorems
settling the specification's claims about them.

Conventions of the embedding:

* Machine integers (`u64`, `u128`) become `Nat` with explicit bound
  checks against `U64_MAX` / `U128_MAX` wherever the source uses
  `checked_*` arithmetic; a failed check is a failure, mirroring
  `.expect(...)` panics.
* Every `require!`/`expect`/`panic` maps to an `Except.error` carrying
  a variant of `CErr` that names the failure the way the panic message
  does; on the chain a panicked call leaves no state change, so an
  `Except.error` result stands for "the call aborted with no effect".
* The host environment (predecessor account, current account, attached
  deposit, block timestamp and height) is passed explicitly as `Env`.
  Remaining gas, which the settlement loop reads before every dispatch,
  is passed as a function `gas_remaining_at : Nat → Nat` giving the
  value observed at the k-th budget check of the call (between two
  checks exactly one payment is dispatched, so indexing checks by the
  number of payments dispatched so far loses no generality).
* Rust's byte-wise lexicographic `str` ordering coincides with Lean's
  code-point lexicographic `String` ordering (UTF-8 preserves
  code-point order), and Rust's stable `sort_by` agrees with stable
  insertion sort: a stable sort's output is uniquely determined by the
  comparison.
-/

namespace BulkPayment

/-! ## SHA-256 over byte lists, kernel-evaluable (`hex::encode(Sha256::digest(...))`) -/

def M32 : Nat := 4294967296

def rotr (n x : Nat) : Nat := ((x >>> n) ||| (x <<< (32 - n))) % M32

def shaK : List Nat :=
  [1116352408, 1899447441, 3049323471, 3921009573, 961987163,
   1508970993, 2453635748, 2870763221, 3624381080, 310598401,
   607225278, 1426881987, 1925078388, 2162078206, 2614888103,
   3248222580, 3835390401, 4022224774, 264347078, 604807628,
   770255983, 1249150122, 1555081692, 1996064986, 2554220882,
   2821834349, 2952996808, 3210313671, 3336571891, 3584528711,
   113926993, 338241895, 666307205, 773529912, 1294757372,
   1396182291, 1695183700, 1986661051, 2177026350, 2456956037,
   2730485921, 2820302411, 3259730800, 3345764771, 3516065817,
   3600352804, 4094571909, 275423344, 430227734, 506948616,
   659060556, 883997877, 958139571, 1322822218, 1537002063,
   1747873779, 1955562222, 2024104815, 2227730452, 2361852424,
   2428436474, 2756734187, 3204031479, 3329325298]

def shaInit : List Nat :=
  [1779033703, 3144134277, 1013904242, 2773480762,
   1359893119, 2600822924, 528734635, 1541459225]

def smallSigma0 (x : Nat) : Nat := (rotr 7 x) ^^^ (rotr 18 x) ^^^ (x >>> 3)

def smallSigma1 (x : Nat) : Nat := (rotr 17 x) ^^^ (rotr 19 x) ^^^ (x >>> 10)

def bigSigma0 (x : Nat) : Nat := (rotr 2 x) ^^^ (rotr 13 x) ^^^ (rotr 22 x)

def bigSigma1 (x : Nat) : Nat := (rotr 6 x) ^^^ (rotr 11 x) ^^^ (rotr 25 x)

def beBytes8 (n : Nat) : List Nat :=
  [(n >>> 56) % 256, (n >>> 48) % 256, (n >>> 40) % 256, (n >>> 32) % 256,
   (n >>> 24) % 256, (n >>> 16) % 256, (n >>> 8) % 256, n % 256]

def padMessage (msg : List Nat) : List Nat :=
  let len := msg.length
  let z := (119 - (len % 64)) % 64
  msg ++ [0x80] ++ List.replicate z 0 ++ beBytes8 (len * 8)

def bytesToWords : List Nat → List Nat
  | a :: b :: c :: d :: rest =>
    ((((a <<< 8) ||| b) <<< 16) ||| ((c <<< 8) ||| d)) :: bytesToWords rest
  | _ => []

/-- Split into 64-byte blocks; the fuel argument (instantiated with the
length) keeps the recursion structural so the kernel can evaluate it. -/
def blocksAux : Nat → List Nat → List (List Nat)
  | 0, _ => []
  | _, [] => []
  | fuel + 1, x :: rest => ((x :: rest).take 64) :: blocksAux fuel ((x :: rest).drop 64)

def blocks (bs : List Nat) : List (List Nat) := blocksAux bs.length bs

def schedule : Nat → List Nat → List Nat
  | 0, w => w
  | n + 1, w =>
    let l := w.length
    let nw := (smallSigma1 (w.getD (l - 2) 0) + w.getD (l - 7) 0 +
               smallSigma0 (w.getD (l - 15) 0) + w.getD (l - 16) 0) % M32
    schedule n (w ++ [nw])

def shaRound (st : List Nat) (kw : Nat) : List Nat :=
  match st with
  | [a, b, c, d, e, f, g, h] =>
    let t1 := (h + bigSigma1 e + ((e &&& f) ^^^ ((e ^^^ 4294967295) &&& g)) + kw) % M32
    let t2 := (bigSigma0 a + ((a &&& b) ^^^ (a &&& c) ^^^ (b &&& c))) % M32
    [(t1 + t2) % M32, a, b, c, (d + t1) % M32, e, f, g]
  | _ => st

def compressBlock (hv : List Nat) (block : List Nat) : List Nat :=
  let w := schedule 48 (bytesToWords block)
  let kw := List.zipWith (fun k wi => (k + wi) % M32) shaK w
  let st := kw.foldl shaRound hv
  List.zipWith (fun x y => (x + y) % M32) hv st

def sha256Words (msg : List Nat) : List Nat :=
  (blocks (padMessage msg)).foldl compressBlock shaInit

def hexDigit (n : Nat) : Char := Char.ofNat (if n < 10 then 48 + n else 87 + n)

def wordHex (w : Nat) : List Char :=
  [hexDigit ((w >>> 28) &&& 15), hexDigit ((w >>> 24) &&& 15),
   hexDigit ((w >>> 20) &&& 15), hexDigit ((w >>> 16) &&& 15),
   hexDigit ((w >>> 12) &&& 15), hexDigit ((w >>> 8) &&& 15),
   hexDigit ((w >>> 4) &&& 15), hexDigit (w &&& 15)]

/-- Lowercase-hex SHA-256 digest of a byte list, as a 64-character string. -/
def sha256hex (msg : List Nat) : String := ⟨(sha256Words msg).flatMap wordHex⟩

/-- UTF-8 encoding of one code point. -/
def utf8Bytes (c : Nat) : List Nat :=
  if c < 128 then [c]
  else if c < 2048 then [192 ||| (c >>> 6), 128 ||| (c &&& 63)]
  else if c < 65536 then
    [224 ||| (c >>> 12), 128 ||| ((c >>> 6) &&& 63), 128 ||| (c &&& 63)]
  else
    [240 ||| (c >>> 18), 128 ||| ((c >>> 12) &&& 63), 128 ||| ((c >>> 6) &&& 63), 128 ||| (c &&& 63)]

/-- The UTF-8 bytes of a string — Rust's `str::as_bytes`. -/
def strBytes (s : String) : List Nat := s.data.flatMap (fun c => utf8Bytes c.toNat)

/-! ## The façade's identifier computation (`routes.rs::compute_list_hash`) -/

/-- `PaymentInput` as the HTTP façade sees it (`bulk-payment-api/src/contract.rs`):
both fields are strings there. -/
structure ApiPaymentInput where
  recipient : String
  amount : String
deriving DecidableEq

/-- serde_json's escaping of one character inside a JSON string:
`"` and `\` get a backslash, the five short control escapes are used,
remaining control characters become `\u00xx`, everything else is copied. -/
def jsonEscapeChar (c : Char) : List Char :=
  if c = '"' then ['\\', '"']
  else if c = '\\' then ['\\', '\\']
  else if c.toNat = 8 then ['\\', 'b']
  else if c.toNat = 9 then ['\\', 't']
  else if c.toNat = 10 then ['\\', 'n']
  else if c.toNat = 12 then ['\\', 'f']
  else if c.toNat = 13 then ['\\', 'r']
  else if c.toNat < 32 then
    ['\\', 'u', '0', '0', hexDigit ((c.toNat >>> 4) &&& 15), hexDigit (c.toNat &&& 15)]
  else [c]

/-- A JSON string literal as serde_json renders it. -/
def jsonString (s : String) : String :=
  ⟨'"' :: s.data.flatMap jsonEscapeChar ++ ['"']⟩

/-- One payment as a serde_json `Value` object rendered compactly; the
default `serde_json::Map` is a BTreeMap, so keys come out alphabetically:
`amount` before `recipient`. -/
def paymentJson (p : ApiPaymentInput) : String :=
  "\x7b\"amount\":" ++ jsonString p.amount ++ ",\"recipient\":" ++ jsonString p.recipient ++ "\x7d"

/-- Lexicographic order on character lists: Rust's `str::cmp` compares
UTF-8 bytes, and UTF-8 byte order coincides with code-point order. -/
def charListLe : List Char → List Char → Bool
  | [], _ => true
  | _ :: _, [] => false
  | a :: as, b :: bs => if a = b then charListLe as bs else decide (a < b)

/-- The comparison `compute_list_hash` sorts by:
`a.recipient.cmp(&b.recipient)` — recipient order only. -/
def recipientLe (a b : ApiPaymentInput) : Prop :=
  charListLe a.recipient.data b.recipient.data = true

instance : DecidableRel recipientLe :=
  fun a b => inferInstanceAs (Decidable (charListLe a.recipient.data b.recipient.data = true))

/-- The stable sort by recipient performed by `compute_list_hash`
(`sorted_payments.sort_by(|a, b| a.recipient.cmp(&b.recipient))`).
Insertion sort is stable, as is Rust's `sort_by`, and a stable sort's
output is determined by the comparison, so the two agree on every input. -/
def sortPayments (payments : List ApiPaymentInput) : List ApiPaymentInput :=
  List.insertionSort recipientLe payments

/-- The canonical JSON `compute_list_hash` feeds to the hash:
`serde_json::json!` with keys `payments`, `submitter`, `token_id`
(alphabetical, BTreeMap), rendered compactly by `to_string`. -/
def canonicalJson (submitter_id token_id : String) (payments : List ApiPaymentInput) : String :=
  "\x7b\"payments\":[" ++
    String.intercalate "," ((sortPayments payments).map paymentJson) ++
  "],\"submitter\":" ++ jsonString submitter_id ++
  ",\"token_id\":" ++ jsonString token_id ++ "\x7d"

/-- `routes.rs::compute_list_hash`: sort payments by recipient, render the
canonical JSON, and return the lowercase-hex SHA-256 of its bytes. -/
def compute_list_hash (submitter_id token_id : String) (payments : List ApiPaymentInput) : String :=
  sha256hex (strBytes (canonicalJson submitter_id token_id payments))

/-! ## The contract (`src/lib.rs`) — data model -/

abbrev AccountId := String

abbrev ListId := String

def U64_MAX : Nat := 18446744073709551615

def U128_MAX : Nat := 340282366920938463463374607431768211455

inductive PaymentStatus where
  | pending : PaymentStatus
  | paid (block_height : Nat) : PaymentStatus
deriving DecidableEq

structure PaymentInput where
  recipient : AccountId
  amount : Nat
deriving DecidableEq

structure PaymentRecord where
  recipient : AccountId
  amount : Nat
  status : PaymentStatus
deriving DecidableEq

inductive ListStatus where
  | pending : ListStatus
  | approved : ListStatus
  | rejected : ListStatus
deriving DecidableEq

structure PaymentList where
  token_id : String
  submitter : AccountId
  status : ListStatus
  payments : List PaymentRecord
  created_at : Nat
deriving DecidableEq

/-- The two `IterableMap`s of `BulkPaymentContract`, as association lists
(`storage_credits` stores a `NearToken`, i.e. a `u128` yoctoNEAR count). -/
structure ContractState where
  payment_lists : List (ListId × PaymentList)
  storage_credits : List (AccountId × Nat)
deriving DecidableEq

/-- `IterableMap::get`. -/
def mapGet {β : Type} (k : String) : List (String × β) → Option β
  | [] => none
  | (k', v) :: rest => if k = k' then some v else mapGet k rest

/-- `IterableMap::insert`: replace in place, or append. -/
def mapInsert {β : Type} (k : String) (v : β) : List (String × β) → List (String × β)
  | [] => [(k, v)]
  | (k', v') :: rest => if k = k' then (k, v) :: rest else (k', v') :: mapInsert k v rest

/-- Failure taxonomy: one variant per `require!`/`expect` message family in
the source (an `Except.error` models the call panicking, which on NEAR
aborts the call with no state change). -/
inductive CErr where
  | invalidInput : CErr
  | duplicateList : CErr
  | unauthorized : CErr
  | insufficientCredits : CErr
  | exactValueMismatch : CErr
  | invalidState : CErr
  | notFound : CErr
  | overflow : CErr
  | insufficientBudget : CErr
  | invalidTokenAccount : CErr
deriving DecidableEq

instance {ε α : Type} [DecidableEq ε] [DecidableEq α] : DecidableEq (Except ε α) := fun a b =>
  match a, b with
  | .error e, .error e' =>
    if h : e = e' then isTrue (by rw [h])
    else isFalse (fun hc => h (by injection hc))
  | .ok v, .ok v' =>
    if h : v = v' then isTrue (by rw [h])
    else isFalse (fun hc => h (by injection hc))
  | .error _, .ok _ => isFalse (fun hc => Except.noConfusion hc)
  | .ok _, .error _ => isFalse (fun hc => Except.noConfusion hc)

/-- The host context a call runs under. -/
structure Env where
  predecessor_account_id : AccountId
  current_account_id : AccountId
  attached_deposit : Nat
  block_timestamp : Nat
  block_height : Nat
deriving DecidableEq

/-! ## The contract — operations -/

/-- `calculate_storage_cost`: 216 bytes per record (checked `u64` multiply),
`10^19` yoctoNEAR per byte (checked `u128` multiply), then a 10% margin via
`checked_mul(11)` / `checked_div(10)`. -/
def calculate_storage_cost (num_records : Nat) : Except CErr Nat :=
  if num_records = 0 then .error .invalidInput
  else
    let storage_bytes := 216 * num_records
    if U64_MAX < storage_bytes then .error .overflow
    else
      let storage_cost_yocto := storage_bytes * 10 ^ 19
      if U128_MAX < storage_cost_yocto then .error .overflow
      else
        let total_cost_yocto := storage_cost_yocto * 11
        if U128_MAX < total_cost_yocto then .error .overflow
        else .ok (total_cost_yocto / 10)

/-- `buy_storage`: requires the attached deposit to equal the quoted cost
exactly, then credits the beneficiary (default: the caller) with
`num_records` units (checked `u128` add). Returns the cost paid. -/
def buy_storage (env : Env) (num_records : Nat) (beneficiary_account_id : Option AccountId)
    (s : ContractState) : Except CErr (ContractState × Nat) :=
  if num_records = 0 then .error .invalidInput
  else
    match calculate_storage_cost num_records with
    | .error e => .error e
    | .ok total_cost =>
      if env.attached_deposit = total_cost then
        let beneficiary := beneficiary_account_id.getD env.predecessor_account_id
        let current_credits := (mapGet beneficiary s.storage_credits).getD 0
        if U128_MAX < current_credits + num_records then .error .overflow
        else
          .ok ({ s with storage_credits :=
                   mapInsert beneficiary (current_credits + num_records) s.storage_credits },
               total_cost)
      else .error .exactValueMismatch

/-- `is_ascii_hexdigit`. -/
def isAsciiHexDigit (c : Char) : Bool :=
  (('0' ≤ c) && (c ≤ '9')) || (('a' ≤ c) && (c ≤ 'f')) || (('A' ≤ c) && (c ≤ 'F'))

/-- `validate_list_id`: 64 bytes long and every character an ASCII hex digit
(`list_id.len()` counts UTF-8 bytes). -/
def validate_list_id (list_id : String) : Bool :=
  (strBytes list_id).length == 64 && list_id.data.all isAsciiHexDigit

/-- `submit_list`: rejects empty lists, malformed or duplicate identifiers;
resolves the effective submitter (third-party submission is reserved to the
contract account itself); debits one storage credit per payment; stores the
list with every record `Pending`. -/
def submit_list (env : Env) (list_id : ListId) (token_id : String)
    (payments : List PaymentInput) (submitter_id : Option AccountId)
    (s : ContractState) : Except CErr (ContractState × ListId) :=
  if payments.isEmpty then .error .invalidInput
  else if !validate_list_id list_id then .error .invalidInput
  else
    match mapGet list_id s.payment_lists with
    | some _ => .error .duplicateList
    | none =>
      let caller := env.predecessor_account_id
      let submitterOk : Except CErr AccountId :=
        match submitter_id with
        | some sid =>
          if caller = env.current_account_id then .ok sid else .error .unauthorized
        | none => .ok caller
      match submitterOk with
      | .error e => .error e
      | .ok submitter =>
        let required_credits := payments.length
        let current_credits := (mapGet submitter s.storage_credits).getD 0
        if current_credits < required_credits then .error .insufficientCredits
        else
          let new_credits := current_credits - required_credits
          let payment_records := payments.map
            (fun input => PaymentRecord.mk input.recipient input.amount PaymentStatus.pending)
          let payment_list : PaymentList :=
            { token_id := token_id, submitter := submitter, status := ListStatus.pending,
              payments := payment_records, created_at := env.block_timestamp }
          let s' : ContractState :=
            { payment_lists := mapInsert list_id payment_list s.payment_lists,
              storage_credits := mapInsert submitter new_credits s.storage_credits }
          .ok (s', list_id)

/-- `try_fold` over `checked_add`: the `u128` sum of the payment amounts,
`none` when an intermediate sum overflows. -/
def checkedSumAux (acc : Nat) : List Nat → Option Nat
  | [] => some acc
  | x :: rest => if U128_MAX < acc + x then none else checkedSumAux (acc + x) rest

def checkedSum (l : List Nat) : Option Nat := checkedSumAux 0 l

/-- `approve_list`: only the submitter, only while `Pending`, and only with
the attached deposit exactly equal to the total of the payment amounts;
transitions the list to `Approved`. -/
def approve_list (env : Env) (list_id : ListId) (s : ContractState) : Except CErr ContractState :=
  match mapGet list_id s.payment_lists with
  | none => .error .notFound
  | some list =>
    if list.submitter = env.predecessor_account_id then
      if list.status = ListStatus.pending then
        match checkedSum (list.payments.map (·.amount)) with
        | none => .error .overflow
        | some total_amount =>
          if env.attached_deposit = total_amount then
            .ok { s with payment_lists :=
                    mapInsert list_id { list with status := ListStatus.approved } s.payment_lists }
          else .error .exactValueMismatch
      else .error .invalidState
    else .error .unauthorized

/-- `reject_list`: only the submitter, only while `Pending`; transitions the
list to `Rejected`. -/
def reject_list (env : Env) (list_id : ListId) (s : ContractState) : Except CErr ContractState :=
  match mapGet list_id s.payment_lists with
  | none => .error .notFound
  | some list =>
    if list.submitter = env.predecessor_account_id then
      if list.status = ListStatus.pending then
        .ok { s with payment_lists :=
                mapInsert list_id { list with status := ListStatus.rejected } s.payment_lists }
      else .error .invalidState
    else .error .unauthorized

/-- Rust `str::starts_with`, as a character-list prefix test (equivalent to
the byte prefix test for a valid-UTF-8 pattern). -/
def strStartsWith (s p : String) : Bool := p.data.isPrefixOf s.data

def TGAS : Nat := 1000000000000

/-- The per-payment gas figure `payout_batch` picks from the token id:
50 TGas for `nep141:`-prefixed ids, 3 TGas for exactly `"native"`, `"near"`
or `"NEAR"`, 50 TGas for anything else. -/
def gas_per_payment (token_id : String) : Nat :=
  if strStartsWith token_id "nep141:" then 50 * TGAS
  else if token_id = "native" ∨ token_id = "near" ∨ token_id = "NEAR" then 3 * TGAS
  else 50 * TGAS

/-- `Gas::from_tgas(15)`, reserved for final bookkeeping. -/
def GAS_RESERVE : Nat := 15 * TGAS

/-- NEAR account-id validity (`near_account_id`): 2–64 bytes, lowercase
alphanumeric parts separated by single `-`/`_`/`.` separators, starting and
ending with an alphanumeric character. `prevSep` starts `true` so a leading
separator is rejected and ends the scan rejecting a trailing one. -/
def isSeparatorChar (c : Char) : Bool := c = '-' || c = '_' || c = '.'

def isAccountChar (c : Char) : Bool := ('a' ≤ c && c ≤ 'z') || ('0' ≤ c && c ≤ '9')

def accountTail (prevSep : Bool) : List Char → Bool
  | [] => !prevSep
  | c :: rest =>
    if isAccountChar c then accountTail false rest
    else if isSeparatorChar c then !prevSep && accountTail true rest
    else false

def isValidAccountId (s : String) : Bool :=
  2 ≤ (strBytes s).length && (strBytes s).length ≤ 64 && accountTail true s.data

/-- Whether dispatching one payment of this list panics: the generic
fungible-token rail does `list.token_id.parse::<AccountId>().expect(...)`,
which panics for a token id that is not a valid account id; the `nep141:`
and native rails never panic at dispatch. -/
def dispatch_fails (token_id : String) : Bool :=
  !strStartsWith token_id "nep141:" &&
  !(token_id == "native" || token_id == "near" || token_id == "NEAR") &&
  !isValidAccountId token_id

/-- The settlement loop of `payout_batch` over the payment records.
`gas_remaining_at k` is `prepaid_gas - used_gas` as observed at the k-th
budget check of this call (one check per pending record reached, and each
passed check dispatches exactly one payment, so `processed` counts both).
Mirrors the source: a failed budget check panics (`InsufficientBudget`)
when nothing was dispatched yet, otherwise breaks; a passed check
dispatches (which panics on an unparsable token account on the generic
fungible-token rail) and marks the record `Paid` at the current height. -/
def payout_loop (gas_per gas_reserve : Nat) (gas_remaining_at : Nat → Nat)
    (dispatch_fail : Bool) (block_height : Nat) :
    List PaymentRecord → Nat → Bool → Except CErr (List PaymentRecord × Nat)
  | [], processed, _ => .ok ([], processed)
  | p :: rest, processed, first_pending_found =>
    match p.status with
    | PaymentStatus.paid _ =>
      match payout_loop gas_per gas_reserve gas_remaining_at dispatch_fail block_height
          rest processed first_pending_found with
      | .error e => .error e
      | .ok (l, n) => .ok (p :: l, n)
    | PaymentStatus.pending =>
      if gas_remaining_at processed < gas_per + gas_reserve then
        if first_pending_found then .ok (p :: rest, processed)
        else .error .insufficientBudget
      else if dispatch_fail then .error .invalidTokenAccount
      else
        match payout_loop gas_per gas_reserve gas_remaining_at dispatch_fail block_height
            rest (processed + 1) true with
        | .error e => .error e
        | .ok (l, n) => .ok ({ p with status := PaymentStatus.paid block_height } :: l, n)

/-- `count(status == Pending)`. -/
def countPending (l : List PaymentRecord) : Nat :=
  (l.filter (fun p => p.status == PaymentStatus.pending)).length

/-- `payout_batch`: requires the list to exist and be `Approved`, runs the
settlement loop, persists the updated list and returns the number of
records still `Pending`. -/
def payout_batch (gas_remaining_at : Nat → Nat) (block_height : Nat)
    (list_id : ListId) (s : ContractState) : Except CErr (ContractState × Nat) :=
  match mapGet list_id s.payment_lists with
  | none => .error .notFound
  | some list =>
    if list.status = ListStatus.approved then
      match payout_loop (gas_per_payment list.token_id) GAS_RESERVE gas_remaining_at
          (dispatch_fails list.token_id) block_height list.payments 0 false with
      | .error e => .error e
      | .ok (payments', _) =>
        .ok ({ s with payment_lists :=
                 mapInsert list_id { list with payments := payments' } s.payment_lists },
             countPending payments')
    else .error .invalidState

/-- `ft_on_transfer`: NEP-141 approval flow. `msg` is the list id; requires
the sender to be the submitter, the list `Pending`, and the transferred
amount to equal the payment total exactly; approves and keeps all tokens
(returns refund `0`). The host context `env` is accepted but never read:
the function does not check which token contract called it. -/
def ft_on_transfer (env : Env) (sender_id : AccountId) (amount : Nat) (msg : String)
    (s : ContractState) : Except CErr (ContractState × Nat) :=
  let list_id := msg
  if validate_list_id list_id then
    match mapGet list_id s.payment_lists with
    | none => .error .notFound
    | some list =>
      if list.submitter = sender_id then
        if list.status = ListStatus.pending then
          match checkedSum (list.payments.map (·.amount)) with
          | none => .error .overflow
          | some total_amount =>
            if amount = total_amount then
              let list' : PaymentList := { list with status := ListStatus.approved }
              .ok ({ s with payment_lists := mapInsert list_id list' s.payment_lists }, 0)
            else .error .exactValueMismatch
        else .error .invalidState
      else .error .unauthorized
  else .error .invalidInput

/-- `mt_on_transfer`: NEP-245 approval flow. Requires the list `Pending`,
exactly one transferred token whose id matches the list's `token_id` and
whose amount equals the payment total; approves and keeps all tokens.
`env`, `sender_id` and `previous_owner_ids` are accepted but never read
(the source explicitly discards them). -/
def mt_on_transfer (env : Env) (sender_id : AccountId) (previous_owner_ids : List AccountId)
    (token_ids : List String) (amounts : List Nat) (msg : String)
    (s : ContractState) : Except CErr (ContractState × List Nat) :=
  let list_id := msg
  if validate_list_id list_id then
    match mapGet list_id s.payment_lists with
    | none => .error .notFound
    | some list =>
      if list.status = ListStatus.pending then
        if token_ids.length = 1 ∧ amounts.length = 1 then
          let token_id := token_ids.headD ""
          let amount := amounts.headD 0
          if list.token_id = token_id then
            match checkedSum (list.payments.map (·.amount)) with
            | none => .error .overflow
            | some total_amount =>
              if amount = total_amount then
                let list' : PaymentList := { list with status := ListStatus.approved }
                .ok ({ s with payment_lists := mapInsert list_id list' s.payment_lists },
                     List.replicate token_ids.length 0)
              else .error .exactValueMismatch
          else .error .invalidInput
        else .error .invalidInput
      else .error .invalidState
  else .error .invalidInput

/-! ## Map lemmas -/

theorem mapGet_mapInsert_self {β : Type} (k : String) (v : β) :
    ∀ m : List (String × β), mapGet k (mapInsert k v m) = some v
  | [] => by simp [mapInsert, mapGet]
  | (k', v') :: rest => by
    by_cases h : k = k'
    · simp [mapInsert, mapGet, h]
    · simp only [mapInsert, if_neg h, mapGet, if_neg h]
      exact mapGet_mapInsert_self k v rest

theorem mapGet_mapInsert_ne {β : Type} (k k₀ : String) (v : β) (hne : k₀ ≠ k) :
    ∀ m : List (String × β), mapGet k₀ (mapInsert k v m) = mapGet k₀ m
  | [] => by simp [mapInsert, mapGet, hne]
  | (k', v') :: rest => by
    by_cases h : k = k'
    · subst h
      simp [mapInsert, mapGet, hne]
    · simp only [mapInsert, if_neg h, mapGet]
      by_cases h0 : k₀ = k'
      · simp [h0]
      · simp only [if_neg h0]
        exact mapGet_mapInsert_ne k k₀ v hne rest

theorem mapInsert_self_of_get {β : Type} (k : String) (v : β) :
    ∀ m : List (String × β), mapGet k m = some v → mapInsert k v m = m
  | [], h => by simp [mapGet] at h
  | (k', v') :: rest, h => by
    by_cases hk : k = k'
    · subst hk
      simp [mapGet] at h
      simp [mapInsert, h]
    · simp only [mapGet, if_neg hk] at h
      simp only [mapInsert, if_neg hk, List.cons.injEq, true_and]
      exact mapInsert_self_of_get k v rest h

/-! ## The byte-order comparison is a total preorder, antisymmetric as a
list order -/

theorem charListLe_refl : ∀ x : List Char, charListLe x x = true
  | [] => rfl
  | a :: as => by simp only [charListLe, if_pos rfl]; exact charListLe_refl as

theorem charListLe_total : ∀ x y : List Char, charListLe x y = true ∨ charListLe y x = true
  | [], _ => Or.inl rfl
  | _ :: _, [] => Or.inr rfl
  | a :: as, b :: bs => by
    by_cases hab : a = b
    · subst hab
      simp only [charListLe, if_pos rfl]
      exact charListLe_total as bs
    · simp only [charListLe, if_neg hab, if_neg (Ne.symm hab), decide_eq_true_eq]
      exact lt_or_gt_of_ne hab

theorem charListLe_trans : ∀ x y z : List Char,
    charListLe x y = true → charListLe y z = true → charListLe x z = true
  | [], _, _, _, _ => rfl
  | _ :: _, [], _, h1, _ => by simp [charListLe] at h1
  | _ :: _, _ :: _, [], _, h2 => by simp [charListLe] at h2
  | a :: as, b :: bs, c :: cs, h1, h2 => by
    by_cases hab : a = b
    · subst hab
      by_cases hbc : a = c
      · subst hbc
        simp only [charListLe, if_pos rfl] at h1 h2 ⊢
        exact charListLe_trans as bs cs h1 h2
      · simp only [charListLe, if_pos rfl] at h1
        simpa only [charListLe, if_neg hbc] using h2
    · by_cases hbc : b = c
      · subst hbc
        simpa only [charListLe, if_neg hab] using h1
      · simp only [charListLe, if_neg hab, if_neg hbc, decide_eq_true_eq] at h1 h2
        have hac : a < c := lt_trans h1 h2
        simp [charListLe, if_neg (ne_of_lt hac), hac]

theorem charListLe_antisymm : ∀ x y : List Char,
    charListLe x y = true → charListLe y x = true → x = y
  | [], [], _, _ => rfl
  | [], _ :: _, _, h2 => by simp [charListLe] at h2
  | _ :: _, [], h1, _ => by simp [charListLe] at h1
  | a :: as, b :: bs, h1, h2 => by
    by_cases hab : a = b
    · subst hab
      simp only [charListLe, if_pos rfl] at h1 h2
      rw [charListLe_antisymm as bs h1 h2]
    · simp only [charListLe, if_neg hab, if_neg (Ne.symm hab), decide_eq_true_eq] at h1 h2
      exact absurd (lt_trans h1 h2) (lt_irrefl a)

instance : IsTotal ApiPaymentInput recipientLe :=
  ⟨fun a b => charListLe_total a.recipient.data b.recipient.data⟩

instance : IsTrans ApiPaymentInput recipientLe :=
  ⟨fun _ _ _ h1 h2 => charListLe_trans _ _ _ h1 h2⟩

/-! ## A stable sort's output is unique when the keys are distinct -/

/-- Two permutations of each other, both sorted by recipient, with no
repeated recipient, are equal: the core of permutation invariance of the
identifier on duplicate-free recipient sets. -/
theorem eq_of_perm_sorted_nodup : ∀ l₁ l₂ : List ApiPaymentInput, l₁.Perm l₂ →
    l₁.Sorted recipientLe → l₂.Sorted recipientLe →
    (l₁.map ApiPaymentInput.recipient).Nodup → l₁ = l₂
  | [], l₂, hp, _, _, _ => hp.nil_eq
  | a :: t₁, [], hp, _, _, _ => by simpa using hp.length_eq
  | a :: t₁, b :: t₂, hp, hs₁, hs₂, hnd => by
    have hb_mem : b ∈ a :: t₁ := hp.mem_iff.mpr (List.mem_cons_self b t₂)
    have ha_mem : a ∈ b :: t₂ := hp.mem_iff.mp (List.mem_cons_self a t₁)
    have hab : recipientLe a b := by
      rcases List.mem_cons.mp hb_mem with h | h
      · exact h ▸ charListLe_refl a.recipient.data
      · exact List.rel_of_sorted_cons hs₁ b h
    have hba : recipientLe b a := by
      rcases List.mem_cons.mp ha_mem with h | h
      · exact h ▸ charListLe_refl b.recipient.data
      · exact List.rel_of_sorted_cons hs₂ a h
    have hkey : a.recipient = b.recipient :=
      congrArg String.mk (charListLe_antisymm _ _ hab hba)
    have hEq : b = a := by
      rcases List.mem_cons.mp hb_mem with h | h
      · exact h
      · exfalso
        have : a.recipient ∈ t₁.map ApiPaymentInput.recipient :=
          List.mem_map.mpr ⟨b, h, hkey.symm⟩
        exact (List.nodup_cons.mp hnd).1 this
    subst hEq
    have ht : t₁ = t₂ :=
      eq_of_perm_sorted_nodup t₁ t₂ hp.cons_inv hs₁.of_cons hs₂.of_cons
        (List.nodup_cons.mp hnd).2
    rw [ht]

theorem sortPayments_perm (l : List ApiPaymentInput) : (sortPayments l).Perm l :=
  List.perm_insertionSort recipientLe l

theorem sortPayments_sorted (l : List ApiPaymentInput) : (sortPayments l).Sorted recipientLe :=
  List.sorted_insertionSort recipientLe l

/-- On a duplicate-free recipient set, sorting by recipient erases the
input ordering entirely. -/
theorem sortPayments_eq_of_perm {l₁ l₂ : List ApiPaymentInput} (hperm : l₁.Perm l₂)
    (hnd : (l₁.map ApiPaymentInput.recipient).Nodup) : sortPayments l₁ = sortPayments l₂ := by
  have hp : (sortPayments l₁).Perm (sortPayments l₂) :=
    ((sortPayments_perm l₁).trans hperm).trans (sortPayments_perm l₂).symm
  have hnd₁ : ((sortPayments l₁).map ApiPaymentInput.recipient).Nodup :=
    (((sortPayments_perm l₁).map ApiPaymentInput.recipient).nodup_iff).mpr hnd
  exact eq_of_perm_sorted_nodup _ _ hp (sortPayments_sorted l₁) (sortPayments_sorted l₂) hnd₁

/-! ## The digest is always 64 characters -/

theorem shaRound_length (st : List Nat) (kw : Nat) (h : st.length = 8) :
    (shaRound st kw).length = 8 := by
  rcases st with _ | ⟨a, _ | ⟨b, _ | ⟨c, _ | ⟨d, _ | ⟨e, _ | ⟨f, _ | ⟨g, _ | ⟨h8, _ | ⟨i, t⟩⟩⟩⟩⟩⟩⟩⟩⟩ <;>
    simp_all [shaRound]

theorem foldl_shaRound_length (kw : List Nat) (st : List Nat) (h : st.length = 8) :
    (kw.foldl shaRound st).length = 8 := by
  induction kw generalizing st with
  | nil => exact h
  | cons x xs ih => exact ih _ (shaRound_length st x h)

theorem compressBlock_length (hv block : List Nat) (h : hv.length = 8) :
    (compressBlock hv block).length = 8 := by
  unfold compressBlock
  rw [List.length_zipWith, h, foldl_shaRound_length _ _ h]
  exact min_self 8

theorem sha256Words_length (msg : List Nat) : (sha256Words msg).length = 8 := by
  unfold sha256Words
  generalize blocks (padMessage msg) = bs
  have : ∀ (bs : List (List Nat)) (hv : List Nat), hv.length = 8 →
      (bs.foldl compressBlock hv).length = 8 := by
    intro bs
    induction bs with
    | nil => intro hv h; exact h
    | cons b rest ih => intro hv h; exact ih _ (compressBlock_length hv b h)
  exact this bs shaInit rfl

theorem flatMap_wordHex_length (ws : List Nat) : (ws.flatMap wordHex).length = 8 * ws.length := by
  induction ws with
  | nil => rfl
  | cons w rest ih =>
    simp only [List.flatMap_cons, List.length_append, ih, List.length_cons]
    simp [wordHex]
    ring

theorem sha256hex_length (msg : List Nat) : (sha256hex msg).length = 64 := by
  show ((sha256Words msg).flatMap wordHex).length = 64
  rw [flatMap_wordHex_length, sha256Words_length]

/-! ## Settlement-loop lemmas -/

/-- Once a pending payment has passed its budget check, the loop can no
longer signal `insufficientBudget`: the budget-short branch then breaks. -/
theorem payout_loop_found_ne_budget (gp gr : Nat) (gra : Nat → Nat) (df : Bool) (bh : Nat) :
    ∀ (l : List PaymentRecord) (k : Nat),
      payout_loop gp gr gra df bh l k true ≠ .error .insufficientBudget
  | [], _ => by simp [payout_loop]
  | p :: rest, k => by
    match hs : p.status with
    | PaymentStatus.paid b =>
      simp only [payout_loop, hs]
      cases hrec : payout_loop gp gr gra df bh rest k true with
      | error e =>
        show ¬Except.error e = Except.error CErr.insufficientBudget
        intro hcontra
        injection hcontra with he
        exact payout_loop_found_ne_budget gp gr gra df bh rest k (he ▸ hrec)
      | ok v =>
        obtain ⟨l, n⟩ := v
        show ¬Except.ok _ = Except.error CErr.insufficientBudget
        simp
    | PaymentStatus.pending =>
      simp only [payout_loop, hs]
      by_cases hgas : gra k < gp + gr
      · simp [hgas]
      · rw [if_neg hgas]
        by_cases hdf : df = true
        · simp [hdf]
        · rw [if_neg hdf]
          cases hrec : payout_loop gp gr gra df bh rest (k + 1) true with
          | error e =>
            show ¬Except.error e = Except.error CErr.insufficientBudget
            intro hcontra
            injection hcontra with he
            exact payout_loop_found_ne_budget gp gr gra df bh rest (k + 1) (he ▸ hrec)
          | ok v =>
            obtain ⟨l, n⟩ := v
            show ¬Except.ok _ = Except.error CErr.insufficientBudget
            simp

/-- Before any dispatch, the loop fails with `insufficientBudget` exactly
when some record is still pending and the first check comes up short —
the check precedes the dispatch, which can only raise a different error. -/
theorem payout_loop_budget_iff (gp gr : Nat) (gra : Nat → Nat) (df : Bool) (bh : Nat) :
    ∀ (l : List PaymentRecord) (k : Nat),
      payout_loop gp gr gra df bh l k false = .error .insufficientBudget ↔
        ((∃ p ∈ l, p.status = PaymentStatus.pending) ∧ gra k < gp + gr)
  | [], k => by simp [payout_loop]
  | p :: rest, k => by
    match hs : p.status with
    | PaymentStatus.paid b =>
      have hiff := payout_loop_budget_iff gp gr gra df bh rest k
      have hmem : (∃ q ∈ rest, q.status = PaymentStatus.pending) ↔
          (∃ q ∈ p :: rest, q.status = PaymentStatus.pending) := by
        constructor
        · intro ⟨q, hq, hqp⟩; exact ⟨q, List.mem_cons_of_mem p hq, hqp⟩
        · intro ⟨q, hq, hqp⟩
          rcases List.mem_cons.mp hq with rfl | hq'
          · rw [hs] at hqp; exact absurd hqp (by simp)
          · exact ⟨q, hq', hqp⟩
      simp only [payout_loop, hs]
      cases hrec : payout_loop gp gr gra df bh rest k false with
      | error e =>
        rw [hrec] at hiff
        show Except.error e = Except.error CErr.insufficientBudget ↔ _
        rw [← hmem, ← hiff]
      | ok v =>
        obtain ⟨l, n⟩ := v
        rw [hrec] at hiff
        show Except.ok _ = Except.error CErr.insufficientBudget ↔ _
        rw [← hmem, ← hiff]
        simp
    | PaymentStatus.pending =>
      simp only [payout_loop, hs]
      by_cases hgas : gra k < gp + gr
      · rw [if_pos hgas]
        simp only [Bool.false_eq_true, if_false]
        constructor
        · intro _; exact ⟨⟨p, List.mem_cons_self p rest, hs⟩, hgas⟩
        · intro _; trivial
      · rw [if_neg hgas]
        constructor
        · intro hcontra
          by_cases hdf : df = true
          · rw [if_pos hdf] at hcontra
            exact absurd hcontra (by simp)
          · rw [if_neg hdf] at hcontra
            cases hrec : payout_loop gp gr gra df bh rest (k + 1) true with
            | error e =>
              rw [hrec] at hcontra
              have he : e = CErr.insufficientBudget := by
                injection hcontra with he
              exact absurd (he ▸ hrec)
                (payout_loop_found_ne_budget gp gr gra df bh rest (k + 1))
            | ok v =>
              obtain ⟨l, n⟩ := v
              rw [hrec] at hcontra
              exact absurd hcontra (by simp)
        · intro ⟨_, hgas'⟩
          exact absurd hgas' hgas

/-- The loop raises no error other than `insufficientBudget` and
`invalidTokenAccount`. -/
theorem payout_loop_shape (gp gr : Nat) (gra : Nat → Nat) (df : Bool) (bh : Nat) :
    ∀ (l : List PaymentRecord) (k : Nat) (b : Bool),
      (∃ v, payout_loop gp gr gra df bh l k b = .ok v) ∨
      payout_loop gp gr gra df bh l k b = .error .insufficientBudget ∨
      payout_loop gp gr gra df bh l k b = .error .invalidTokenAccount
  | [], k, b => Or.inl ⟨([], k), rfl⟩
  | p :: rest, k, b => by
    match hs : p.status with
    | PaymentStatus.paid bh' =>
      simp only [payout_loop, hs]
      rcases payout_loop_shape gp gr gra df bh rest k b with ⟨⟨l, n⟩, hv⟩ | h | h
      · rw [hv]; exact Or.inl ⟨(p :: l, n), rfl⟩
      · rw [h]; exact Or.inr (Or.inl rfl)
      · rw [h]; exact Or.inr (Or.inr rfl)
    | PaymentStatus.pending =>
      simp only [payout_loop, hs]
      by_cases hgas : gra k < gp + gr
      · rw [if_pos hgas]
        cases b
        · exact Or.inr (Or.inl (by simp))
        · exact Or.inl ⟨(p :: rest, k), by simp⟩
      · rw [if_neg hgas]
        by_cases hdf : df = true
        · rw [if_pos hdf]; exact Or.inr (Or.inr rfl)
        · rw [if_neg hdf]
          rcases payout_loop_shape gp gr gra df bh rest (k + 1) true with ⟨⟨l, n⟩, hv⟩ | h | h
          · rw [hv]
            exact Or.inl ⟨({ p with status := PaymentStatus.paid bh } :: l, n), rfl⟩
          · rw [h]; exact Or.inr (Or.inl rfl)
          · rw [h]; exact Or.inr (Or.inr rfl)

/-- When the rail cannot panic at dispatch, the loop never raises
`invalidTokenAccount`. -/
theorem payout_loop_no_token_error (gp gr : Nat) (gra : Nat → Nat) (bh : Nat) :
    ∀ (l : List PaymentRecord) (k : Nat) (b : Bool),
      payout_loop gp gr gra false bh l k b ≠ .error .invalidTokenAccount
  | [], _, _ => by simp [payout_loop]
  | p :: rest, k, b => by
    match hs : p.status with
    | PaymentStatus.paid bh' =>
      simp only [payout_loop, hs]
      cases hrec : payout_loop gp gr gra false bh rest k b with
      | error e =>
        show ¬Except.error e = Except.error CErr.invalidTokenAccount
        intro hcontra
        injection hcontra with he
        exact payout_loop_no_token_error gp gr gra bh rest k b (he ▸ hrec)
      | ok v =>
        obtain ⟨l, n⟩ := v
        show ¬Except.ok _ = Except.error CErr.invalidTokenAccount
        simp
    | PaymentStatus.pending =>
      simp only [payout_loop, hs]
      by_cases hgas : gra k < gp + gr
      · rw [if_pos hgas]
        cases b <;> simp
      · rw [if_neg hgas, if_neg (by simp : ¬(false = true))]
        cases hrec : payout_loop gp gr gra false bh rest (k + 1) true with
        | error e =>
          show ¬Except.error e = Except.error CErr.invalidTokenAccount
          intro hcontra
          injection hcontra with he
          exact payout_loop_no_token_error gp gr gra bh rest (k + 1) true (he ▸ hrec)
        | ok v =>
          obtain ⟨l, n⟩ := v
          show ¬Except.ok _ = Except.error CErr.invalidTokenAccount
          simp

/-- A list with nothing pending passes through the loop untouched, with
the dispatch counter unchanged. -/
theorem payout_loop_all_paid (gp gr : Nat) (gra : Nat → Nat) (df : Bool) (bh : Nat) :
    ∀ (l : List PaymentRecord) (k : Nat) (b : Bool),
      (∀ p ∈ l, p.status ≠ PaymentStatus.pending) →
      payout_loop gp gr gra df bh l k b = .ok (l, k)
  | [], _, _, _ => rfl
  | p :: rest, k, b, hnp => by
    match hs : p.status with
    | PaymentStatus.paid bh' =>
      simp only [payout_loop, hs]
      rw [payout_loop_all_paid gp gr gra df bh rest k b
        (fun q hq => hnp q (List.mem_cons_of_mem p hq))]
    | PaymentStatus.pending =>
      exact absurd hs (hnp p (List.mem_cons_self p rest))

/-- One payment status step the settlement loop may take. -/
def paymentStatusStep (a b : PaymentStatus) : Prop :=
  a = b ∨ (a = PaymentStatus.pending ∧ ∃ h, b = PaymentStatus.paid h)

/-- One list status step any operation may take. -/
def listStatusStep (a b : ListStatus) : Prop :=
  a = b ∨ (a = ListStatus.pending ∧ (b = ListStatus.approved ∨ b = ListStatus.rejected))

theorem forall₂_paymentStatusStep_refl :
    ∀ l : List PaymentRecord, List.Forall₂ (fun p q => paymentStatusStep p.status q.status) l l
  | [] => List.Forall₂.nil
  | p :: rest => List.Forall₂.cons (Or.inl rfl) (forall₂_paymentStatusStep_refl rest)

/-- The settlement loop only moves records from `Pending` to `Paid`. -/
theorem payout_loop_forall₂ (gp gr : Nat) (gra : Nat → Nat) (df : Bool) (bh : Nat) :
    ∀ (l : List PaymentRecord) (k : Nat) (b : Bool) (l' : List PaymentRecord) (n : Nat),
      payout_loop gp gr gra df bh l k b = .ok (l', n) →
      List.Forall₂ (fun p q => paymentStatusStep p.status q.status) l l'
  | [], k, b, l', n, h => by
    simp only [payout_loop, Except.ok.injEq, Prod.mk.injEq] at h
    obtain ⟨rfl, rfl⟩ := h
    exact List.Forall₂.nil
  | p :: rest, k, b, l', n, h => by
    match hs : p.status with
    | PaymentStatus.paid bh' =>
      simp only [payout_loop, hs] at h
      cases hrec : payout_loop gp gr gra df bh rest k b with
      | error e => rw [hrec] at h; exact absurd h (by simp)
      | ok v =>
        obtain ⟨l0, n0⟩ := v
        rw [hrec] at h
        simp only [Except.ok.injEq, Prod.mk.injEq] at h
        obtain ⟨rfl, rfl⟩ := h
        exact List.Forall₂.cons (Or.inl rfl)
          (payout_loop_forall₂ gp gr gra df bh rest k b l0 n0 hrec)
    | PaymentStatus.pending =>
      simp only [payout_loop, hs] at h
      by_cases hgas : gra k < gp + gr
      · rw [if_pos hgas] at h
        cases b with
        | false => exact absurd h (by simp)
        | true =>
          simp only [if_pos rfl, Except.ok.injEq, Prod.mk.injEq] at h
          obtain ⟨rfl, rfl⟩ := h
          exact forall₂_paymentStatusStep_refl (p :: rest)
      · rw [if_neg hgas] at h
        by_cases hdf : df = true
        · rw [if_pos hdf] at h; exact absurd h (by simp)
        · rw [if_neg hdf] at h
          cases hrec : payout_loop gp gr gra df bh rest (k + 1) true with
          | error e => rw [hrec] at h; exact absurd h (by simp)
          | ok v =>
            obtain ⟨l0, n0⟩ := v
            rw [hrec] at h
            simp only [Except.ok.injEq, Prod.mk.injEq] at h
            obtain ⟨rfl, rfl⟩ := h
            exact List.Forall₂.cons (Or.inr ⟨hs, bh, rfl⟩)
              (payout_loop_forall₂ gp gr gra df bh rest (k + 1) true l0 n0 hrec)

set_option maxRecDepth 100000

/-- The state all three approval paths (`approve_list`, `ft_on_transfer`,
`mt_on_transfer`) produce on success: the same store with the list's
status replaced by `Approved`. -/
def approvedState (s : ContractState) (list_id : ListId) (list : PaymentList) : ContractState :=
  { s with payment_lists :=
      mapInsert list_id { list with status := ListStatus.approved } s.payment_lists }

/-- Sample data used by the witnesses: a well-formed 64-hex-character list
id, a one-payment pending native list owned by `alice.near`, and a store
holding it. -/
def wLid : ListId := "aaaaaaaaaaaaaaaaaaaaaaaaaaaaaaaaaaaaaaaaaaaaaaaaaaaaaaaaaaaaaaaa"

def wList : PaymentList :=
  PaymentList.mk "native" "alice.near" ListStatus.pending
    [PaymentRecord.mk "bob.near" 5 PaymentStatus.pending] 0

def wState : ContractState := ContractState.mk [(wLid, wList)] []

def wEnv (caller : AccountId) (deposit : Nat) : Env := Env.mk caller "pay.near" deposit 0 0

/-- Fidelity check for the embedding of `compute_list_hash`: the exact
input/output pair of the unit test `routes.rs::tests::test_compute_list_hash`. -/
theorem compute_list_hash_test_vector :
    compute_list_hash "test.near" "native" [ApiPaymentInput.mk "a.near" "100"] =
      "b667f7213a94d9e4f106080e7b3ec2f92d3ad19c71c4d6cb45b2f6f370c59ec4" := by
  decide

/-! ## Claims -/

/-- **C1** (counterexample). Two payment lists that are permutations of one
another but share a recipient hash differently: the sort is by recipient
only and stable, so two same-recipient payments keep their input order and
the canonical JSON — hence the identifier — depends on that order. -/
theorem c1_counterexample :
    List.Perm [ApiPaymentInput.mk "a.near" "1", ApiPaymentInput.mk "a.near" "2"]
      [ApiPaymentInput.mk "a.near" "2", ApiPaymentInput.mk "a.near" "1"] ∧
    compute_list_hash "s.near" "native"
        [ApiPaymentInput.mk "a.near" "1", ApiPaymentInput.mk "a.near" "2"] ≠
      compute_list_hash "s.near" "native"
        [ApiPaymentInput.mk "a.near" "2", ApiPaymentInput.mk "a.near" "1"] := by
  constructor
  · decide
  · decide

/-- **C1** (amended). For every submitter, token id and pair of payment
lists that are permutations of one another, *provided no two payments share
a recipient*, `compute_list_hash` returns the same identifier, and that
identifier is a 64-character string. -/
theorem c1_hash_perm_invariant (submitter_id token_id : String)
    (l₁ l₂ : List ApiPaymentInput) (hperm : l₁.Perm l₂)
    (hnd : (l₁.map ApiPaymentInput.recipient).Nodup) :
    compute_list_hash submitter_id token_id l₁ = compute_list_hash submitter_id token_id l₂ ∧
    (compute_list_hash submitter_id token_id l₁).length = 64 := by
  constructor
  · unfold compute_list_hash canonicalJson
    rw [sortPayments_eq_of_perm hperm hnd]
  · exact sha256hex_length _

/-- Witness for the amended C1: a concrete permuted pair with distinct
recipients. -/
theorem c1_hash_perm_invariant_witness :
    compute_list_hash "s.near" "native"
        [ApiPaymentInput.mk "a.near" "1", ApiPaymentInput.mk "b.near" "2"] =
      compute_list_hash "s.near" "native"
        [ApiPaymentInput.mk "b.near" "2", ApiPaymentInput.mk "a.near" "1"] ∧
    (compute_list_hash "s.near" "native"
        [ApiPaymentInput.mk "a.near" "1", ApiPaymentInput.mk "b.near" "2"]).length = 64 :=
  c1_hash_perm_invariant "s.near" "native" _ _ (by decide) (by decide)

/-- **C2** (counterexample). The claim's case-insensitive reading would
route `"Native"` to the 3-unit rail; the code compares case-sensitively, so
`"Native"` costs 50 units. -/
theorem c2_counterexample :
    gas_per_payment "Native" = 50 * TGAS ∧ gas_per_payment "Native" ≠ 3 * TGAS := by
  constructor
  · decide
  · decide

/-- **C2** (amended). The per-payment gas is 3 TGas exactly when the token
id is the literal `"native"`, `"near"` or `"NEAR"` (case-sensitive apart
from those three spellings); `nep141:`-prefixed ids cost 50 TGas, and so
does everything else. -/
theorem c2_gas_per_payment (tok : String) :
    ((tok = "native" ∨ tok = "near" ∨ tok = "NEAR") → gas_per_payment tok = 3 * TGAS) ∧
    (strStartsWith tok "nep141:" = true → gas_per_payment tok = 50 * TGAS) ∧
    ((tok ≠ "native" ∧ tok ≠ "near" ∧ tok ≠ "NEAR") → gas_per_payment tok = 50 * TGAS) := by
  refine ⟨?_, ?_, ?_⟩
  · rintro (rfl | rfl | rfl) <;> decide
  · intro h
    unfold gas_per_payment
    rw [if_pos h]
  · intro ⟨h1, h2, h3⟩
    unfold gas_per_payment
    by_cases hp : strStartsWith tok "nep141:" = true
    · rw [if_pos hp]
    · rw [if_neg hp, if_neg (by tauto)]

/-- Witness for the amended C2 at the three rails. -/
theorem c2_gas_per_payment_witness :
    gas_per_payment "near" = 3 * TGAS ∧
    gas_per_payment "nep141:usdt.tether-token.near" = 50 * TGAS ∧
    gas_per_payment "usdt.tether-token.near" = 50 * TGAS :=
  ⟨(c2_gas_per_payment "near").1 (Or.inr (Or.inl rfl)),
   (c2_gas_per_payment "nep141:usdt.tether-token.near").2.1 (by decide),
   (c2_gas_per_payment "usdt.tether-token.near").2.2 (by decide)⟩

/-- **C10**. `calculate_storage_cost` returns the exact 10%-marked-up cost
(the floor the code computes coincides with the ceiling because
`216 · n · 10^19` is divisible by 10), the documented value at `n = 10`,
fails on zero records, and fails closed on both checked multiplications. -/
theorem c10_calculate_storage_cost :
    calculate_storage_cost 10 = .ok (23760 * 10 ^ 18) ∧
    calculate_storage_cost 0 = .error .invalidInput ∧
    (∀ n, 0 < n → 216 * n ≤ U64_MAX → 216 * n * 10 ^ 19 * 11 ≤ U128_MAX →
      calculate_storage_cost n = .ok ((216 * n * 10 ^ 19 * 11 + 9) / 10)) ∧
    (∀ n, U64_MAX < 216 * n → calculate_storage_cost n = .error .overflow) ∧
    (∀ n, 216 * n ≤ U64_MAX → U128_MAX < 216 * n * 10 ^ 19 * 11 →
      calculate_storage_cost n = .error .overflow) := by
  have hyocto : ∀ n : Nat, 216 * n ≤ U64_MAX → ¬U128_MAX < 216 * n * 10 ^ 19 := by
    intro n h64
    apply not_lt.mpr
    calc 216 * n * 10 ^ 19 ≤ U64_MAX * 10 ^ 19 := Nat.mul_le_mul_right _ h64
      _ ≤ U128_MAX := by norm_num [U64_MAX, U128_MAX]
  refine ⟨by decide, by decide, ?_, ?_, ?_⟩
  · intro n hn h64 h128
    have hn0 : ¬n = 0 := by omega
    unfold calculate_storage_cost
    rw [if_neg hn0, if_neg (not_lt.mpr h64), if_neg (hyocto n h64), if_neg (not_lt.mpr h128)]
    congr 1
    have hdvd : 10 ∣ 216 * n * 10 ^ 19 * 11 := ⟨216 * n * 10 ^ 18 * 11, by ring⟩
    omega
  · intro n h
    have hn0 : ¬n = 0 := by
      intro h0
      rw [h0] at h
      simp [U64_MAX] at h
    unfold calculate_storage_cost
    rw [if_neg hn0, if_pos h]
  · intro n h64 h128
    have hn0 : ¬n = 0 := by
      intro h0
      rw [h0] at h128
      simp [U128_MAX] at h128
    unfold calculate_storage_cost
    rw [if_neg hn0, if_neg (not_lt.mpr h64), if_neg (hyocto n h64), if_pos h128]

/-- Witness for C10: the exact-cost branch at `n = 5` and both overflow
branches at concrete large inputs. -/
theorem c10_calculate_storage_cost_witness :
    calculate_storage_cost 5 = .ok ((216 * 5 * 10 ^ 19 * 11 + 9) / 10) ∧
    calculate_storage_cost 100000000000000000 = .error .overflow ∧
    calculate_storage_cost 50000000000000000 = .error .overflow :=
  ⟨c10_calculate_storage_cost.2.2.1 5 (by decide) (by decide) (by decide),
   c10_calculate_storage_cost.2.2.2.1 100000000000000000 (by decide),
   c10_calculate_storage_cost.2.2.2.2 50000000000000000 (by decide) (by decide)⟩

/-- **C6**. `buy_storage` fails (`ExactValueMismatch`) on any attached
value other than the quoted cost; `approve_list` never succeeds with an
attached value other than the exact payment total, and with the submitter
calling on a `Pending` list it fails precisely with `ExactValueMismatch`
when the value is off and transitions the list to `Approved` when the
value is exact. -/
theorem c6_exact_value :
    (∀ (env : Env) (n : Nat) (beneficiary : Option AccountId) (s : ContractState) (cost : Nat),
      calculate_storage_cost n = .ok cost → env.attached_deposit ≠ cost →
      buy_storage env n beneficiary s = .error .exactValueMismatch) ∧
    (∀ (env : Env) (list_id : ListId) (s s' : ContractState) (list : PaymentList) (total : Nat),
      mapGet list_id s.payment_lists = some list →
      checkedSum (list.payments.map (·.amount)) = some total →
      env.attached_deposit ≠ total →
      approve_list env list_id s ≠ .ok s') ∧
    (∀ (env : Env) (list_id : ListId) (s : ContractState) (list : PaymentList) (total : Nat),
      mapGet list_id s.payment_lists = some list →
      list.submitter = env.predecessor_account_id →
      list.status = ListStatus.pending →
      checkedSum (list.payments.map (·.amount)) = some total →
      env.attached_deposit ≠ total →
      approve_list env list_id s = .error .exactValueMismatch) ∧
    (∀ (env : Env) (list_id : ListId) (s : ContractState) (list : PaymentList) (total : Nat),
      mapGet list_id s.payment_lists = some list →
      list.submitter = env.predecessor_account_id →
      list.status = ListStatus.pending →
      checkedSum (list.payments.map (·.amount)) = some total →
      env.attached_deposit = total →
      approve_list env list_id s = .ok (approvedState s list_id list)) := by
  refine ⟨?_, ?_, ?_, ?_⟩
  · intro env n beneficiary s cost hq hne
    have hn0 : ¬n = 0 := by
      intro h0
      rw [h0] at hq
      simp [calculate_storage_cost] at hq
    simp only [buy_storage, if_neg hn0, hq]
    rw [if_neg hne]
  · intro env list_id s s' list total hget hsum hne
    simp only [approve_list, hget]
    by_cases hsub : list.submitter = env.predecessor_account_id
    · rw [if_pos hsub]
      by_cases hst : list.status = ListStatus.pending
      · rw [if_pos hst]
        simp only [hsum]
        rw [if_neg hne]
        simp
      · rw [if_neg hst]
        simp
    · rw [if_neg hsub]
      simp
  · intro env list_id s list total hget hsub hst hsum hne
    simp only [approve_list, hget]
    rw [if_pos hsub, if_pos hst]
    simp only [hsum]
    rw [if_neg hne]
  · intro env list_id s list total hget hsub hst hsum heq
    unfold approvedState
    simp only [approve_list, hget]
    rw [if_pos hsub, if_pos hst]
    simp only [hsum]
    rw [if_pos heq]

/-- Witness for C6: one-under and one-over deposits fail a 1-record
purchase and a 1-payment approval; the exact deposit approves. -/
theorem c6_exact_value_witness :
    buy_storage (wEnv "alice.near" (2376 * 10 ^ 18 - 1)) 1 none (ContractState.mk [] []) =
      .error .exactValueMismatch ∧
    buy_storage (wEnv "alice.near" (2376 * 10 ^ 18 + 1)) 1 none (ContractState.mk [] []) =
      .error .exactValueMismatch ∧
    approve_list (wEnv "alice.near" 4) wLid wState = .error .exactValueMismatch ∧
    approve_list (wEnv "alice.near" 6) wLid wState = .error .exactValueMismatch ∧
    approve_list (wEnv "alice.near" 5) wLid wState = .ok (approvedState wState wLid wList) := by
  refine ⟨?_, ?_, ?_, ?_, ?_⟩
  · exact c6_exact_value.1 (wEnv "alice.near" (2376 * 10 ^ 18 - 1)) 1 none
      (ContractState.mk [] []) (2376 * 10 ^ 18) (by decide) (by decide)
  · exact c6_exact_value.1 (wEnv "alice.near" (2376 * 10 ^ 18 + 1)) 1 none
      (ContractState.mk [] []) (2376 * 10 ^ 18) (by decide) (by decide)
  · exact c6_exact_value.2.2.1 (wEnv "alice.near" 4) wLid wState wList 5
      (by decide) (by decide) (by decide) (by decide) (by decide)
  · exact c6_exact_value.2.2.1 (wEnv "alice.near" 6) wLid wState wList 5
      (by decide) (by decide) (by decide) (by decide) (by decide)
  · exact c6_exact_value.2.2.2 (wEnv "alice.near" 5) wLid wState wList 5
      (by decide) (by decide) (by decide) (by decide) (by decide)

/-- **C8**. After a successful `submit_list` the effective submitter's
credit balance drops by exactly `payments.length` (and was at least that
large, so the checked subtraction cannot wrap below zero); when the prior
balance is smaller than the number of payments the call cannot succeed,
and on the path where every other precondition holds it fails with the
insufficient-credits error (a failed call changes no state). -/
theorem c8_submit_credit_conservation :
    (∀ (env : Env) (list_id : ListId) (token_id : String) (payments : List PaymentInput)
       (submitter_id : Option AccountId) (s s' : ContractState) (r : ListId),
      submit_list env list_id token_id payments submitter_id s = .ok (s', r) →
      payments.length ≤
          (mapGet (submitter_id.getD env.predecessor_account_id) s.storage_credits).getD 0 ∧
      (mapGet (submitter_id.getD env.predecessor_account_id) s'.storage_credits).getD 0 =
        (mapGet (submitter_id.getD env.predecessor_account_id) s.storage_credits).getD 0 -
          payments.length) ∧
    (∀ (env : Env) (list_id : ListId) (token_id : String) (payments : List PaymentInput)
       (submitter_id : Option AccountId) (s : ContractState) (out : ContractState × ListId),
      (mapGet (submitter_id.getD env.predecessor_account_id) s.storage_credits).getD 0 <
          payments.length →
      submit_list env list_id token_id payments submitter_id s ≠ .ok out) ∧
    (∀ (env : Env) (list_id : ListId) (token_id : String) (payments : List PaymentInput)
       (s : ContractState),
      payments ≠ [] → validate_list_id list_id = true →
      mapGet list_id s.payment_lists = none →
      (mapGet env.predecessor_account_id s.storage_credits).getD 0 < payments.length →
      submit_list env list_id token_id payments none s = .error .insufficientCredits) := by
  have hmain : ∀ (env : Env) (list_id : ListId) (token_id : String)
      (payments : List PaymentInput) (submitter_id : Option AccountId)
      (s s' : ContractState) (r : ListId),
      submit_list env list_id token_id payments submitter_id s = .ok (s', r) →
      payments.length ≤
          (mapGet (submitter_id.getD env.predecessor_account_id) s.storage_credits).getD 0 ∧
      (mapGet (submitter_id.getD env.predecessor_account_id) s'.storage_credits).getD 0 =
        (mapGet (submitter_id.getD env.predecessor_account_id) s.storage_credits).getD 0 -
          payments.length := by
    intro env list_id token_id payments submitter_id s s' r hok
    simp only [submit_list] at hok
    split at hok
    · exact absurd hok (by simp)
    split at hok
    · exact absurd hok (by simp)
    split at hok
    · exact absurd hok (by simp)
    split at hok
    · exact absurd hok (by simp)
    next submitter heq =>
      split at hok
      · exact absurd hok (by simp)
      next hcred =>
        simp only [Except.ok.injEq, Prod.mk.injEq] at hok
        obtain ⟨rfl, rfl⟩ := hok
        have hsub : submitter = submitter_id.getD env.predecessor_account_id := by
          cases submitter_id with
          | some sid =>
            simp only [Option.getD_some]
            have heq' : (if env.predecessor_account_id = env.current_account_id then
                Except.ok (ε := CErr) sid else Except.error CErr.unauthorized) =
                Except.ok submitter := heq
            by_cases hc : env.predecessor_account_id = env.current_account_id
            · rw [if_pos hc] at heq'
              injection heq' with h'
              exact h'.symm
            · rw [if_neg hc] at heq'
              exact absurd heq' (by simp)
          | none =>
            simp only [Option.getD_none]
            have heq' : Except.ok (ε := CErr) env.predecessor_account_id =
                Except.ok submitter := heq
            injection heq' with h'
            exact h'.symm
        subst hsub
        constructor
        · exact Nat.le_of_not_lt hcred
        · simp [mapGet_mapInsert_self]
  refine ⟨hmain, ?_, ?_⟩
  · intro env list_id token_id payments submitter_id s out hlt hok
    obtain ⟨s', r⟩ := out
    obtain ⟨hle, _⟩ := hmain env list_id token_id payments submitter_id s s' r hok
    omega
  · intro env list_id token_id payments s hne hval hnone hlt
    have hemp : payments.isEmpty = false := by
      cases payments with
      | nil => exact absurd rfl hne
      | cons a t => rfl
    simp only [submit_list, hemp, Bool.false_eq_true, if_false, hval, Bool.not_true,
      hnone]
    rw [if_pos hlt]

/-- Witness for C8: a submitter with 3 credits submits 2 payments and ends
with 1; with 1 credit the same submission fails with
`insufficientCredits`. -/
theorem c8_submit_credit_conservation_witness :
    (2 ≤ (mapGet "alice.near" (ContractState.mk [] [("alice.near", 3)]).storage_credits).getD 0 ∧
      (mapGet "alice.near"
        (ContractState.mk
          [(wLid, PaymentList.mk "native" "alice.near" ListStatus.pending
            [PaymentRecord.mk "bob.near" 1 PaymentStatus.pending,
             PaymentRecord.mk "carol.near" 2 PaymentStatus.pending] 0)]
          [("alice.near", 1)]).storage_credits).getD 0 =
        (mapGet "alice.near" (ContractState.mk [] [("alice.near", 3)]).storage_credits).getD 0 - 2) ∧
    submit_list (wEnv "alice.near" 0) wLid "native"
        [PaymentInput.mk "bob.near" 1, PaymentInput.mk "carol.near" 2] none
        (ContractState.mk [] [("alice.near", 1)]) = .error .insufficientCredits := by
  constructor
  · exact c8_submit_credit_conservation.1 (wEnv "alice.near" 0) wLid "native"
      [PaymentInput.mk "bob.near" 1, PaymentInput.mk "carol.near" 2] none
      (ContractState.mk [] [("alice.near", 3)])
      (ContractState.mk
        [(wLid, PaymentList.mk "native" "alice.near" ListStatus.pending
          [PaymentRecord.mk "bob.near" 1 PaymentStatus.pending,
           PaymentRecord.mk "carol.near" 2 PaymentStatus.pending] 0)]
        [("alice.near", 1)]) wLid (by decide)
  · exact c8_submit_credit_conservation.2.2 (wEnv "alice.near" 0) wLid "native"
      [PaymentInput.mk "bob.near" 1, PaymentInput.mk "carol.near" 2]
      (ContractState.mk [] [("alice.near", 1)])
      (by decide) (by decide) (by decide) (by decide)

/-- **C4**. `mt_on_transfer` approves a pending list for *any* sender
whenever the single transferred token matches the list's token and the
amount equals the payment total: its result does not depend on `sender_id`
(or the caller, or the previous owners) at all, whereas `ft_on_transfer`
and `approve_list` both reject a non-submitter. -/
theorem c4_mt_no_submitter_check (list_id : ListId) (s : ContractState) (list : PaymentList)
    (total : Nat) (hval : validate_list_id list_id = true)
    (hget : mapGet list_id s.payment_lists = some list)
    (hst : list.status = ListStatus.pending)
    (hsum : checkedSum (list.payments.map (·.amount)) = some total) :
    (∀ (env : Env) (sender_id : AccountId) (prev : List AccountId),
      mt_on_transfer env sender_id prev [list.token_id] [total] list_id s =
        .ok (approvedState s list_id list, [0])) ∧
    (∀ (env env' : Env) (sa sb : AccountId) (pa pb : List AccountId)
       (tids : List String) (amts : List Nat),
      mt_on_transfer env sa pa tids amts list_id s =
        mt_on_transfer env' sb pb tids amts list_id s) ∧
    (∀ (env : Env) (sender : AccountId) (amount : Nat),
      sender ≠ list.submitter →
      ft_on_transfer env sender amount list_id s = .error .unauthorized) ∧
    (∀ env : Env, env.predecessor_account_id ≠ list.submitter →
      approve_list env list_id s = .error .unauthorized) := by
  refine ⟨?_, ?_, ?_, ?_⟩
  · intro env sender_id prev
    simp [mt_on_transfer, approvedState, hval, hget, hst, hsum]
  · intro env env' sa sb pa pb tids amts
    rfl
  · intro env sender amount hne
    simp [ft_on_transfer, hval, hget, Ne.symm hne]
  · intro env hne
    simp [approve_list, hget, Ne.symm hne]

/-- Witness for C4: `mallory.near`, who is not the submitter, approves
Alice's pending list through `mt_on_transfer`, while her direct
`ft_on_transfer` and `approve_list` attempts are rejected. -/
theorem c4_mt_no_submitter_check_witness :
    mt_on_transfer (wEnv "mallory.near" 0) "mallory.near" [] ["native"] [5] wLid wState =
      .ok (approvedState wState wLid wList, [0]) ∧
    ft_on_transfer (wEnv "mallory.near" 0) "mallory.near" 5 wLid wState =
      .error .unauthorized ∧
    approve_list (wEnv "mallory.near" 5) wLid wState = .error .unauthorized := by
  have h := c4_mt_no_submitter_check wLid wState wList 5
    (by decide) (by decide) (by decide) (by decide)
  exact ⟨h.1 (wEnv "mallory.near" 0) "mallory.near" [],
         h.2.2.1 (wEnv "mallory.near" 0) "mallory.near" 5 (by decide),
         h.2.2.2 (wEnv "mallory.near" 5) (by decide)⟩

/-- **C5**. The token-receiver callbacks never read the calling context:
with identical arguments, two invocations under any two different callers
(`env` carries the predecessor account) produce identical results — and in
particular any caller can move a pending list to `Approved` by invoking
`ft_on_transfer` directly with `sender_id` set to the submitter and the
payment total as `amount`, no tokens changing hands. -/
theorem c5_callbacks_caller_independent :
    (∀ (env env' : Env) (sender : AccountId) (amount : Nat) (msg : String) (s : ContractState),
      ft_on_transfer env sender amount msg s = ft_on_transfer env' sender amount msg s) ∧
    (∀ (env env' : Env) (sender sender' : AccountId) (pa pb : List AccountId)
       (tids : List String) (amts : List Nat) (msg : String) (s : ContractState),
      mt_on_transfer env sender pa tids amts msg s =
        mt_on_transfer env' sender' pb tids amts msg s) ∧
    (∀ (env : Env) (list_id : ListId) (s : ContractState) (list : PaymentList) (total : Nat),
      validate_list_id list_id = true →
      mapGet list_id s.payment_lists = some list →
      list.status = ListStatus.pending →
      checkedSum (list.payments.map (·.amount)) = some total →
      ft_on_transfer env list.submitter total list_id s =
        .ok (approvedState s list_id list, 0)) := by
  refine ⟨?_, ?_, ?_⟩
  · intro env env' sender amount msg s
    rfl
  · intro env env' sender sender' pa pb tids amts msg s
    rfl
  · intro env list_id s list total hval hget hst hsum
    simp [ft_on_transfer, approvedState, hval, hget, hst, hsum]

/-- Witness for C5: an arbitrary caller (`env` of `mallory.near`) approves
Alice's list by calling `ft_on_transfer` with Alice as `sender_id`. -/
theorem c5_callbacks_caller_independent_witness :
    ft_on_transfer (wEnv "mallory.near" 0) "alice.near" 5 wLid wState =
      .ok (approvedState wState wLid wList, 0) :=
  c5_callbacks_caller_independent.2.2 (wEnv "mallory.near" 0) wLid wState wList 5
    (by decide) (by decide) (by decide) (by decide)

/-- The sample list after approval, and the store holding it. -/
def wApprovedList : PaymentList :=
  PaymentList.mk "native" "alice.near" ListStatus.approved
    [PaymentRecord.mk "bob.near" 5 PaymentStatus.pending] 0

def wApprovedState : ContractState := ContractState.mk [(wLid, wApprovedList)] []

/-- A fully settled sample list, and the store holding it. -/
def wPaidList : PaymentList :=
  PaymentList.mk "native" "alice.near" ListStatus.approved
    [PaymentRecord.mk "bob.near" 5 (PaymentStatus.paid 3)] 0

def wPaidState : ContractState := ContractState.mk [(wLid, wPaidList)] []

/-- **C3**. On an approved list, `payout_batch` fails with
`InsufficientBudget` exactly when some record is still pending *and* the
budget observed at the very first check (before anything is dispatched) is
below the rail cost plus the 15-TGas reserve; since that first check comes
before the first dispatch, once one payment has been dispatched the call
can no longer fail for budget, and whenever the rail itself cannot panic
the call returns normally instead. -/
theorem c3_budget_policy (gas_remaining_at : Nat → Nat) (block_height : Nat)
    (list_id : ListId) (s : ContractState) (list : PaymentList)
    (hget : mapGet list_id s.payment_lists = some list)
    (hst : list.status = ListStatus.approved) :
    (payout_batch gas_remaining_at block_height list_id s = .error .insufficientBudget ↔
      ((∃ p ∈ list.payments, p.status = PaymentStatus.pending) ∧
        gas_remaining_at 0 < gas_per_payment list.token_id + GAS_RESERVE)) ∧
    (dispatch_fails list.token_id = false →
      ¬((∃ p ∈ list.payments, p.status = PaymentStatus.pending) ∧
          gas_remaining_at 0 < gas_per_payment list.token_id + GAS_RESERVE) →
      ∃ s' r, payout_batch gas_remaining_at block_height list_id s = .ok (s', r)) := by
  constructor
  · simp only [payout_batch, hget]
    rw [if_pos hst]
    cases hloop : payout_loop (gas_per_payment list.token_id) GAS_RESERVE gas_remaining_at
        (dispatch_fails list.token_id) block_height list.payments 0 false with
    | error e =>
      have hiff := payout_loop_budget_iff (gas_per_payment list.token_id) GAS_RESERVE
        gas_remaining_at (dispatch_fails list.token_id) block_height list.payments 0
      rw [hloop] at hiff
      show Except.error e = Except.error CErr.insufficientBudget ↔ _
      constructor
      · intro h
        injection h with he
        exact hiff.mp (by rw [he])
      · intro hr
        have h2 := hiff.mpr hr
        injection h2 with he
        rw [he]
    | ok v =>
      obtain ⟨l', n⟩ := v
      have hiff := payout_loop_budget_iff (gas_per_payment list.token_id) GAS_RESERVE
        gas_remaining_at (dispatch_fails list.token_id) block_height list.payments 0
      rw [hloop] at hiff
      constructor
      · intro h
        exact absurd h (by simp)
      · intro hr
        exact absurd (hiff.mpr hr) (by simp)
  · intro hdf hnot
    simp only [payout_batch, hget]
    rw [if_pos hst]
    rcases payout_loop_shape (gas_per_payment list.token_id) GAS_RESERVE gas_remaining_at
        (dispatch_fails list.token_id) block_height list.payments 0 false with ⟨⟨l', n⟩, hv⟩ | h | h
    · rw [hv]
      exact ⟨_, _, rfl⟩
    · exact absurd ((payout_loop_budget_iff (gas_per_payment list.token_id) GAS_RESERVE
        gas_remaining_at (dispatch_fails list.token_id) block_height list.payments 0).mp h) hnot
    · rw [hdf] at h
      exact absurd h (payout_loop_no_token_error (gas_per_payment list.token_id) GAS_RESERVE
        gas_remaining_at block_height list.payments 0 false)

/-- Witness for C3: with zero budget the call on a one-pending-payment
approved list fails fatally; with an ample budget it returns normally. -/
theorem c3_budget_policy_witness :
    payout_batch (fun _ => 0) 7 wLid wApprovedState = .error .insufficientBudget ∧
    (∃ s' r, payout_batch (fun _ => 10 ^ 15) 7 wLid wApprovedState = .ok (s', r)) := by
  constructor
  · exact (c3_budget_policy (fun _ => 0) 7 wLid wApprovedState wApprovedList
      (by decide) (by decide)).1.mpr (by decide)
  · exact (c3_budget_policy (fun _ => 10 ^ 15) 7 wLid wApprovedState wApprovedList
      (by decide) (by decide)).2 (by decide) (by decide)

/-- **C9**. A successful `payout_batch` returns exactly the number of
records still `Pending` in the persisted list; on an approved list whose
records are all `Paid` it returns 0 and the resulting state is the input
state itself — no payment list and no credit balance changes. -/
theorem c9_remaining_pending :
    (∀ (gra : Nat → Nat) (bh : Nat) (list_id : ListId) (s s' : ContractState) (r : Nat),
      payout_batch gra bh list_id s = .ok (s', r) →
      ∃ list', mapGet list_id s'.payment_lists = some list' ∧
        r = countPending list'.payments) ∧
    (∀ (gra : Nat → Nat) (bh : Nat) (list_id : ListId) (s : ContractState) (list : PaymentList),
      mapGet list_id s.payment_lists = some list →
      list.status = ListStatus.approved →
      (∀ p ∈ list.payments, p.status ≠ PaymentStatus.pending) →
      payout_batch gra bh list_id s = .ok (s, 0)) := by
  constructor
  · intro gra bh list_id s s' r hok
    simp only [payout_batch] at hok
    split at hok
    · exact absurd hok (by simp)
    next list hget =>
      split at hok
      · split at hok
        · exact absurd hok (by simp)
        next l' n hloop =>
          simp only [Except.ok.injEq, Prod.mk.injEq] at hok
          obtain ⟨rfl, rfl⟩ := hok
          exact ⟨{ list with payments := l' }, by simp [mapGet_mapInsert_self], rfl⟩
      · exact absurd hok (by simp)
  · intro gra bh list_id s list hget hst hnp
    simp only [payout_batch, hget]
    rw [if_pos hst]
    rw [payout_loop_all_paid _ _ _ _ _ _ _ _ hnp]
    show Except.ok (ContractState.mk
        (mapInsert list_id { list with payments := list.payments } s.payment_lists)
        s.storage_credits, countPending list.payments) = Except.ok (s, 0)
    have h1 : ({ list with payments := list.payments } : PaymentList) = list := rfl
    rw [h1, mapInsert_self_of_get list_id list s.payment_lists hget]
    have h2 : ContractState.mk s.payment_lists s.storage_credits = s := rfl
    rw [h2]
    have h3 : countPending list.payments = 0 := by
      unfold countPending
      rw [List.length_eq_zero]
      exact List.filter_eq_nil.mpr (fun p hp => by simp [hnp p hp])
    rw [h3]

/-- Witness for C9: re-invoking on the fully settled sample list returns 0
and hands back the state unchanged. -/
theorem c9_remaining_pending_witness :
    payout_batch (fun _ => 10 ^ 15) 7 wLid wPaidState = .ok (wPaidState, 0) :=
  c9_remaining_pending.2 (fun _ => 10 ^ 15) 7 wLid wPaidState wPaidList
    (by decide) (by decide) (by decide)

/-- Every stored list evolves along the allowed lifecycle edges: it stays
stored, its status takes at most one allowed step, and its records only
move `Pending → Paid`. -/
def storeEvolves (m m' : List (ListId × PaymentList)) : Prop :=
  ∀ id l, mapGet id m = some l →
    ∃ l', mapGet id m' = some l' ∧ listStatusStep l.status l'.status ∧
      List.Forall₂ (fun p q => paymentStatusStep p.status q.status) l.payments l'.payments

theorem storeEvolves_insert (m : List (ListId × PaymentList)) (lid : ListId)
    (list list' : PaymentList) (hget : mapGet lid m = some list)
    (hstep : listStatusStep list.status list'.status)
    (hpay : List.Forall₂ (fun p q => paymentStatusStep p.status q.status)
      list.payments list'.payments) :
    storeEvolves m (mapInsert lid list' m) := by
  intro id l hl
  by_cases hid : id = lid
  · subst hid
    rw [hget] at hl
    injection hl with hl'
    subst hl'
    exact ⟨list', mapGet_mapInsert_self id list' m, hstep, hpay⟩
  · refine ⟨l, ?_, Or.inl rfl, forall₂_paymentStatusStep_refl l.payments⟩
    rw [mapGet_mapInsert_ne lid id list' hid m]
    exact hl

theorem storeEvolves_insert_fresh (m : List (ListId × PaymentList)) (lid : ListId)
    (nl : PaymentList) (hget : mapGet lid m = none) :
    storeEvolves m (mapInsert lid nl m) := by
  intro id l hl
  have hid : id ≠ lid := by
    intro h
    rw [h, hget] at hl
    cases hl
  refine ⟨l, ?_, Or.inl rfl, forall₂_paymentStatusStep_refl l.payments⟩
  rw [mapGet_mapInsert_ne lid id nl hid m]
  exact hl

/-- **C7**. Every state-mutating operation preserves the lifecycle
invariant: lists only step `Pending → Approved` or `Pending → Rejected`
(never out of a terminal status) and payment records only step
`Pending → Paid`; approving or rejecting a non-`Pending` list, or running
`payout_batch` on a non-`Approved` list, fails with the invalid-state
error. -/
theorem c7_lifecycle_invariant :
    (∀ (env : Env) (list_id : ListId) (token_id : String) (payments : List PaymentInput)
       (submitter_id : Option AccountId) (s s' : ContractState) (r : ListId),
      submit_list env list_id token_id payments submitter_id s = .ok (s', r) →
      storeEvolves s.payment_lists s'.payment_lists) ∧
    (∀ (env : Env) (list_id : ListId) (s s' : ContractState),
      approve_list env list_id s = .ok s' →
      storeEvolves s.payment_lists s'.payment_lists) ∧
    (∀ (env : Env) (list_id : ListId) (s s' : ContractState),
      reject_list env list_id s = .ok s' →
      storeEvolves s.payment_lists s'.payment_lists) ∧
    (∀ (gra : Nat → Nat) (bh : Nat) (list_id : ListId) (s s' : ContractState) (r : Nat),
      payout_batch gra bh list_id s = .ok (s', r) →
      storeEvolves s.payment_lists s'.payment_lists) ∧
    (∀ (env : Env) (sender : AccountId) (amount : Nat) (msg : String) (s s' : ContractState)
       (r : Nat),
      ft_on_transfer env sender amount msg s = .ok (s', r) →
      storeEvolves s.payment_lists s'.payment_lists) ∧
    (∀ (env : Env) (sender : AccountId) (prev : List AccountId) (tids : List String)
       (amts : List Nat) (msg : String) (s s' : ContractState) (rs : List Nat),
      mt_on_transfer env sender prev tids amts msg s = .ok (s', rs) →
      storeEvolves s.payment_lists s'.payment_lists) ∧
    (∀ (env : Env) (list_id : ListId) (s : ContractState) (list : PaymentList),
      mapGet list_id s.payment_lists = some list →
      list.submitter = env.predecessor_account_id →
      list.status ≠ ListStatus.pending →
      approve_list env list_id s = .error .invalidState) ∧
    (∀ (env : Env) (list_id : ListId) (s : ContractState) (list : PaymentList),
      mapGet list_id s.payment_lists = some list →
      list.submitter = env.predecessor_account_id →
      list.status ≠ ListStatus.pending →
      reject_list env list_id s = .error .invalidState) ∧
    (∀ (gra : Nat → Nat) (bh : Nat) (list_id : ListId) (s : ContractState) (list : PaymentList),
      mapGet list_id s.payment_lists = some list →
      list.status ≠ ListStatus.approved →
      payout_batch gra bh list_id s = .error .invalidState) := by
  refine ⟨?_, ?_, ?_, ?_, ?_, ?_, ?_, ?_, ?_⟩
  · intro env list_id token_id payments submitter_id s s' r hok
    simp only [submit_list] at hok
    split at hok
    · exact absurd hok (by simp)
    split at hok
    · exact absurd hok (by simp)
    split at hok
    · exact absurd hok (by simp)
    next hfresh =>
      split at hok
      · exact absurd hok (by simp)
      next submitter heq =>
        split at hok
        · exact absurd hok (by simp)
        next hcred =>
          simp only [Except.ok.injEq, Prod.mk.injEq] at hok
          obtain ⟨rfl, rfl⟩ := hok
          exact storeEvolves_insert_fresh s.payment_lists list_id _ hfresh
  · intro env list_id s s' hok
    simp only [approve_list] at hok
    split at hok
    · exact absurd hok (by simp)
    next list hget =>
      split at hok
      · split at hok
        · next hst =>
          split at hok
          · exact absurd hok (by simp)
          next total hsum =>
            split at hok
            · simp only [Except.ok.injEq] at hok
              subst hok
              exact storeEvolves_insert s.payment_lists list_id list _ hget
                (Or.inr ⟨hst, Or.inl rfl⟩) (forall₂_paymentStatusStep_refl list.payments)
            · exact absurd hok (by simp)
        · exact absurd hok (by simp)
      · exact absurd hok (by simp)
  · intro env list_id s s' hok
    simp only [reject_list] at hok
    split at hok
    · exact absurd hok (by simp)
    next list hget =>
      split at hok
      · split at hok
        · next hst =>
          simp only [Except.ok.injEq] at hok
          subst hok
          exact storeEvolves_insert s.payment_lists list_id list _ hget
            (Or.inr ⟨hst, Or.inr rfl⟩) (forall₂_paymentStatusStep_refl list.payments)
        · exact absurd hok (by simp)
      · exact absurd hok (by simp)
  · intro gra bh list_id s s' r hok
    simp only [payout_batch] at hok
    split at hok
    · exact absurd hok (by simp)
    next list hget =>
      split at hok
      · split at hok
        · exact absurd hok (by simp)
        next l' n hloop =>
          simp only [Except.ok.injEq, Prod.mk.injEq] at hok
          obtain ⟨rfl, rfl⟩ := hok
          exact storeEvolves_insert s.payment_lists list_id list _ hget
            (Or.inl rfl)
            (payout_loop_forall₂ (gas_per_payment list.token_id) GAS_RESERVE gra
              (dispatch_fails list.token_id) bh list.payments 0 false l' n hloop)
      · exact absurd hok (by simp)
  · intro env sender amount msg s s' r hok
    simp only [ft_on_transfer] at hok
    split at hok
    · split at hok
      · exact absurd hok (by simp)
      next list hget =>
        split at hok
        · split at hok
          · next hst =>
            split at hok
            · exact absurd hok (by simp)
            next total hsum =>
              split at hok
              · simp only [Except.ok.injEq, Prod.mk.injEq] at hok
                obtain ⟨rfl, rfl⟩ := hok
                exact storeEvolves_insert s.payment_lists msg list _ hget
                  (Or.inr ⟨hst, Or.inl rfl⟩) (forall₂_paymentStatusStep_refl list.payments)
              · exact absurd hok (by simp)
          · exact absurd hok (by simp)
        · exact absurd hok (by simp)
    · exact absurd hok (by simp)
  · intro env sender prev tids amts msg s s' rs hok
    simp only [mt_on_transfer] at hok
    split at hok
    · split at hok
      · exact absurd hok (by simp)
      next list hget =>
        split at hok
        · next hst =>
          split at hok
          · split at hok
            · split at hok
              · exact absurd hok (by simp)
              next total hsum =>
                split at hok
                · simp only [Except.ok.injEq, Prod.mk.injEq] at hok
                  obtain ⟨rfl, rfl⟩ := hok
                  exact storeEvolves_insert s.payment_lists msg list _ hget
                    (Or.inr ⟨hst, Or.inl rfl⟩) (forall₂_paymentStatusStep_refl list.payments)
                · exact absurd hok (by simp)
            · exact absurd hok (by simp)
          · exact absurd hok (by simp)
        · exact absurd hok (by simp)
    · exact absurd hok (by simp)
  · intro env list_id s list hget hsub hst
    simp only [approve_list, hget]
    rw [if_pos hsub, if_neg hst]
  · intro env list_id s list hget hsub hst
    simp only [reject_list, hget]
    rw [if_pos hsub, if_neg hst]
  · intro gra bh list_id s list hget hst
    simp only [payout_batch, hget]
    rw [if_neg hst]

/-- Witness for C7: the forbidden transitions are rejected with
`invalidState` on concrete stores. -/
theorem c7_lifecycle_invariant_witness :
    approve_list (wEnv "alice.near" 5) wLid wApprovedState = .error .invalidState ∧
    reject_list (wEnv "alice.near" 0) wLid wApprovedState = .error .invalidState ∧
    payout_batch (fun _ => 10 ^ 15) 7 wLid wState = .error .invalidState :=
  ⟨c7_lifecycle_invariant.2.2.2.2.2.2.1 (wEnv "alice.near" 5) wLid wApprovedState wApprovedList
      (by decide) (by decide) (by decide),
   c7_lifecycle_invariant.2.2.2.2.2.2.2.1 (wEnv "alice.near" 0) wLid wApprovedState wApprovedList
      (by decide) (by decide) (by decide),
   c7_lifecycle_invariant.2.2.2.2.2.2.2.2 (fun _ => 10 ^ 15) 7 wLid wState wList
      (by decide) (by decide)⟩

end BulkPayment
